import Mathlib

/-!
Verification development for the Bing-Creator-Image-Downloader repository.

The Python source is shallowly embedded: the dataclass `models/image.py:Image`
becomes a Lean structure, the download walk of
`models/image_download.py:ImageDownload.__download_and_save_image` becomes a
recursive function over the candidate URL list, the retry-and-merge of
`strategies/file_image_source_strategy.py` becomes explicit state passing,
and network responses are supplied by oracles (pure functions standing for the
outcome of each HTTP exchange).  External library calls whose internals are
irrelevant to the claims (dateutil parsing/formatting, urllib unquote, the
filename template/slugify pipeline) are passed in as function parameters.
Definitions come first, then the lemmas and theorems about them.
-/

namespace BingDl

/-- Mirror of the dataclass `models/image.py:Image`.  Python `None` defaults
become `Option` fields; `attempts` starts at 0. -/
structure Image where
  image_urls : List (Nat × String)
  index : String
  prompt : String
  page_url : String
  collection_name : String := "Collection"
  collection_id : Option String := none
  date_modified : Option String := none
  creation_date : Option String := none
  used_image_url : Option String := none
  file_name : Option String := none
  is_thumbnail : Bool := false
  is_success : Bool := false
  status_code : Option Nat := none
  reason : Option String := none
  attempts : Nat := 0
deriving DecidableEq, Repr

/-- Outcome of one `RetryClient.get(url)` exchange in the download walk:
either an HTTP response (final status, content type, decoded pixel width of
the body, reason phrase) or a transport-level exception raised by the client.
The retry behaviour of `aiohttp_retry` is internal to the exchange, so the
oracle reports only the terminal outcome the `async with` block observes. -/
inductive Resp where
  | http (status : Nat) (contentType : String) (width : Nat) (reason : String)
  | exn (msg : String)
deriving DecidableEq, Repr

/-- Success test of `image_download.py` line 95:
`response.status == 200 and response.content_type == 'image/jpeg'`. -/
def isSuccessResp : Resp → Bool
  | .http s ct _ _ => s == 200 && ct == "image/jpeg"
  | .exn _ => false

/-- A response that is received (no transport exception) but fails the
line-95 test: the walk logs a warning and moves to the next candidate. -/
def isHttpReject : Resp → Bool
  | .http s ct _ _ => !(s == 200 && ct == "image/jpeg")
  | .exn _ => false

/-- The `for index, (_, url) in enumerate(image.image_urls)` loop of
`ImageDownload.__download_and_save_image` (image_download.py lines 91-137).
`resp` is the network oracle; `mkName` stands for the
slugify/template/temp-dir filename pipeline of lines 96-110 and 117, which
depends only on the image's metadata.  A transport exception aborts the walk
(it is caught by the enclosing `try`, line 139, with the state mutated so
far); a 200 `image/jpeg` response finishes the item and returns; any other
response records status/reason and continues with the next candidate. -/
def downloadLoop (resp : String → Resp) (mkName : Image → String) :
    Image → List (Nat × String) → Image
  | img, [] => img
  | img, (_, url) :: rest =>
    match resp url with
    | .exn _ => img
    | .http s ct w reason =>
      let img1 : Image := { img with attempts := img.attempts + 1 }
      if s = 200 ∧ ct = "image/jpeg" then
        let base := mkName img1
        let isThumb := w < 1024
        let fname := (if isThumb then base ++ "_T" else base) ++ ".jpg"
        { img1 with
          used_image_url := some url
          file_name := some fname
          is_thumbnail := if isThumb then true else img1.is_thumbnail
          is_success := true
          status_code := some s
          reason := some reason }
      else
        downloadLoop resp mkName
          { img1 with status_code := some s, reason := some reason } rest

/-- `ImageDownload.__download_and_save_image`: walk the image's own ordered
candidate URL list. -/
def downloadAndSaveImage (resp : String → Resp) (mkName : Image → String)
    (img : Image) : Image :=
  downloadLoop resp mkName img img.image_urls

/-- Formalisation of the spec's phrase "a content-type indicating an image
payload", used only to compare the claim's wording with the source's test
(the source compares against the exact string `image/jpeg`). -/
def specImageContentType (ct : String) : Bool :=
  "image/".data.isPrefixOf ct.data

/-- One positional merge of `FileImageSourceStrategy.get_image_data_retry`
(file_image_source_strategy.py lines 44-49):
`map(lambda current, new: current if current is not None else new, current_images, new_images)`.
Python's two-iterable `map` stops at the shorter list, like `zipWith`. -/
def mergeRound : List (Option Image) → List (Option Image) → List (Option Image)
  | [], _ => []
  | _ :: _, [] => []
  | c :: cs, n :: ns =>
    (match c with
     | some v => some v
     | none => n) :: mergeRound cs ns

/-- `FileImageSourceStrategy.gather_images`: one concurrent resolution round
over positions `0..n-1` of the identifier list.  `resolve round i` is the
oracle for the outcome of `get_image_data` for position `i` during round
`round` (the semaphore only bounds concurrency and does not affect values). -/
def gatherImages (resolve : Nat → Nat → Option Image) (round n : Nat) :
    List (Option Image) :=
  (List.range n).map (resolve round)

/-- The `while None in current_images and attempts_made < attempts` loop of
`get_image_data_retry`, with `made` playing `attempts_made`.  Round `made`
is re-gathered for the whole list and merged positionally. -/
def retryLoop (resolve : Nat → Nat → Option Image) (n attempts : Nat)
    (cur : List (Option Image)) (made : Nat) : List (Option Image) :=
  if h : none ∈ cur ∧ made < attempts then
    retryLoop resolve n attempts
      (mergeRound cur (gatherImages resolve made n)) (made + 1)
  else cur
termination_by attempts - made
decreasing_by omega

/-- `FileImageSourceStrategy.get_image_data_retry`: first gather (round 0),
then the retry-and-merge loop starting with `attempts_made = 1`. -/
def getImageDataRetry (resolve : Nat → Nat → Option Image) (n attempts : Nat) :
    List (Option Image) :=
  retryLoop resolve n attempts (gatherImages resolve 0 n) 1

/-- One record of the detail endpoint's `value` array. -/
structure DetailImage where
  imageId : String
  contentUrl : String
  thumbnailUrl : String
  imageAltText : String
  hostPageUrl : String
  datePublished : String
deriving DecidableEq, Repr

/-- Terminal outcome of the RetryPolicy-wrapped detail GET as
`ImageUtility.get_detail_image` observes it.  `valueField` distinguishes the
three JSON shapes the code tests for: `none` models a payload without a
`value` key, `some none` a `value` key holding `null`, and `some (some l)`
the array of records. -/
structure DetailHttpResponse where
  status : Nat
  valueField : Option (Option (List DetailImage))
deriving DecidableEq, Repr

/-- Record selection of image_utility.py lines 94-96: keep the records whose
`imageId` equals the URL-decoded item id, fall back to `images[0]` when none
match.  On an empty `value` array CPython would raise IndexError; that case
(modelled as `none`) is exercised by no claim. -/
def selectResponseImage (imgs : List DetailImage) (decodedId : String) :
    Option DetailImage :=
  match imgs.filter (fun im => im.imageId == decodedId) with
  | [] => imgs.head?
  | m :: _ => some m

/-- `ImageUtility.get_detail_image` (image_utility.py lines 89-100): on a 200
response with a present, non-null `value` array select a record; any other
response shape yields `None` (never an exception).  `dec` models
`urllib.parse.unquote`. -/
def getDetailImage (resp : DetailHttpResponse) (imageId : String)
    (dec : String → String) : Option DetailImage :=
  if resp.status = 200 then
    match resp.valueField with
    | some (some imgs) => selectResponseImage imgs (dec imageId)
    | _ => none
  else none

/-- Python `str.zfill` for the unsigned digit strings used as indices (the
sign-handling branch of `zfill` is never reachable from `str(index + 1)`). -/
def zfill (s : String) (w : Nat) : String :=
  if w ≤ s.length then s else String.mk (List.replicate (w - s.length) '0' ++ s.data)

/-- The `{'image_set_id': ..., 'image_id': ...}` dictionary produced by
`ImageUtility.extract_set_and_image_id`. -/
structure IdDict where
  image_set_id : String
  image_id : String
deriving DecidableEq, Repr

/-- `FileImageSourceStrategy.get_image_data` (lines 78-97) applied to the
detail outcome: on a resolved record, build the `Image` with candidate URLs
`[(1, contentUrl), (2, thumbnailUrl)]`, the zero-padded 1-based index, and
the UTC-normalised publication date (`fmtU` models
`dateutil_parser.parse(s).astimezone(timezone.utc).strftime('%Y-%m-%dT%H%MZ')`);
on `None`, log and return `None`. -/
def fileGetImageData (detail : Option DetailImage) (index : Nat)
    (fmtU : String → String) : Option Image :=
  match detail with
  | none => none
  | some d =>
    some { image_urls := [(1, d.contentUrl), (2, d.thumbnailUrl)]
           prompt := d.imageAltText
           index := zfill (toString (index + 1)) 4
           page_url := d.hostPageUrl
           creation_date := some (fmtU d.datePublished) }

/-- Per-round, per-position resolver of the file pipeline: look up the
identifier at position `i` and run `get_image_data` against that round's
detail response. -/
def fileResolve (respO : Nat → Nat → DetailHttpResponse) (ids : List IdDict)
    (fmtU : String → String) (dec : String → String) : Nat → Nat → Option Image :=
  fun round i =>
    match ids.get? i with
    | none => none
    | some idd =>
      fileGetImageData (getDetailImage (respO round i) idd.image_id dec) i fmtU

/-- `FileImageSourceStrategy.get_images` after the identifier file has been
read: retry-and-merge, then `[image for image in images if image is not None]`. -/
def getImagesFile (respO : Nat → Nat → DetailHttpResponse) (ids : List IdDict)
    (fmtU : String → String) (dec : String → String) (attempts : Nat) : List Image :=
  (getImageDataRetry (fileResolve respO ids fmtU dec) ids.length attempts).filterMap id

/-- Ordering on `(priority, url)` pairs used by
`sorted(image.image_urls, key=lambda url: url[0])`. -/
instance : IsTotal (Nat × String) (fun a b => a.1 ≤ b.1) :=
  ⟨fun a b => Nat.le_total a.1 b.1⟩

instance : IsTrans (Nat × String) (fun a b => a.1 ≤ b.1) :=
  ⟨fun _ _ _ h1 h2 => Nat.le_trans h1 h2⟩

/-- One conditional append of `APIImageSourceStrategy.__set_additional_data`
(lines 140-141 and 142-143):
`if not any(u == url for _, url in image.image_urls): image.image_urls.append((p, u))`. -/
def appendIfNewUrl (urls : List (Nat × String)) (p : Nat) (u : String) :
    List (Nat × String) :=
  if urls.any (fun pu => u == pu.2) then urls else urls ++ [(p, u)]

/-- Lines 140-143 of `APIImageSourceStrategy.__set_additional_data`: append
the detail-confirmed content URL at priority 2 only if it is distinct from
every URL already present, then the detail-confirmed thumbnail URL at
priority 4 only if distinct from every URL present (including a just-added
priority-2 entry).  This is the list before the sort of line 144. -/
def appendDetailUrlsRaw (urls : List (Nat × String)) (ri : DetailImage) :
    List (Nat × String) :=
  appendIfNewUrl (appendIfNewUrl urls 2 ri.contentUrl) 4 ri.thumbnailUrl

/-- Line 144 of `__set_additional_data`:
`image.image_urls = sorted(image.image_urls, key=lambda url: url[0])`.
Python's `sorted` is a stable ascending sort by the key; Mathlib's
`insertionSort` with the key order is exactly such a stable sort. -/
def appendDetailUrls (urls : List (Nat × String)) (ri : DetailImage) :
    List (Nat × String) :=
  List.insertionSort (fun a b => a.1 ≤ b.1) (appendDetailUrlsRaw urls ri)

/-- Character class `[a-f0-9]` of the identifier pattern. -/
def isHexLower (c : Char) : Bool :=
  ('a' ≤ c && c ≤ 'f') || ('0' ≤ c && c ≤ '9')

/-- Literal comparison of the slice `l[i : i + pat.length]` against `pat`. -/
def sliceEq (l : List Char) (i : Nat) (pat : List Char) : Bool :=
  ((l.drop i).take pat.length) == pat

/-- Thirty-two consecutive `[a-f0-9]` characters starting at `i`. -/
def hexRunAt (l : List Char) (i : Nat) : Bool :=
  ((l.drop i).take 32).length == 32 && ((l.drop i).take 32).all isHexLower

/-- The `[^&]+` tail: at least one character at `i` and it is not `&`. -/
def nonAmpAt (l : List Char) (i : Nat) : Bool :=
  match l.get? i with
  | some c => c != '&'
  | none => false

/-- The lookbehind `(?<=\/)`: position `i` is preceded by a slash. -/
def slashBeforeAt (l : List Char) (i : Nat) : Bool :=
  match i with
  | 0 => false
  | j + 1 => l.get? j == some '/'

/-- Match of
`(?<=\/)[a-f0-9]{32}\?id=[^&]+` starting at `i` (the branch in which the
optional `(?:\d\-)?` group is empty). -/
def matchBareAt (l : List Char) (i : Nat) : Bool :=
  slashBeforeAt l i && hexRunAt l i &&
    sliceEq l (i + 32) "?id=".data && nonAmpAt l (i + 36)

/-- Match of `(?<=\/)\d\-[a-f0-9]{32}\?id=[^&]+` starting at `i` (the branch
in which the optional digit-dash group is consumed; the regex engine tries
this branch first because the group is greedy). -/
def matchPrefAt (l : List Char) (i : Nat) : Bool :=
  slashBeforeAt l i &&
    (match l.get? i with
     | some c => c.isDigit
     | none => false) &&
    (l.get? (i + 1) == some '-') &&
    hexRunAt l (i + 2) &&
    sliceEq l (i + 34) "?id=".data && nonAmpAt l (i + 38)

/-- `re.search` for the identifier pattern of
`ImageUtility.extract_set_and_image_id` (image_utility.py line 28): the
start position of the leftmost match, if any. -/
def searchIdx (l : List Char) : Option Nat :=
  (List.range l.length).find? (fun i => matchPrefAt l i || matchBareAt l i)

/-- `ImageUtility.extract_set_and_image_id` (lines 28-34).  When `re.search`
finds no match it returns `None` and the subsequent `result.group(...)`
raises `AttributeError`; that exception is modelled as `Except.error ()`.
On a match, `image_set_id` is the (optionally digit-dash prefixed) 32-hex
token and `image_id` the maximal `&`-free run after `?id=`. -/
def extractSetAndImageId (l : List Char) : Except Unit IdDict :=
  match searchIdx l with
  | none => .error ()
  | some i =>
    if matchPrefAt l i then
      .ok ⟨String.mk ((l.drop i).take 34),
           String.mk ((l.drop (i + 38)).takeWhile (fun c => c != '&'))⟩
    else
      .ok ⟨String.mk ((l.drop i).take 32),
           String.mk ((l.drop (i + 36)).takeWhile (fun c => c != '&'))⟩

/-- Decidable equality for `Except`, used to evaluate concrete outcomes. -/
instance {ε α : Type} [DecidableEq ε] [DecidableEq α] : DecidableEq (Except ε α) :=
  fun a b =>
    match a, b with
    | .error e1, .error e2 =>
      if h : e1 = e2 then isTrue (by rw [h]) else isFalse (by intro hc; cases hc; exact h rfl)
    | .ok l1, .ok l2 =>
      if h : l1 = l2 then isTrue (by rw [h]) else isFalse (by intro hc; cases hc; exact h rfl)
    | .error _, .ok _ => isFalse (by intro hc; cases hc)
    | .ok _, .error _ => isFalse (by intro hc; cases hc)

/-- Sequential evaluation of a fallible map, as a Python list comprehension
performs it: the first raised exception propagates and aborts the whole
comprehension. -/
def mapExcept {α β : Type} (f : α → Except Unit β) : List α → Except Unit (List β)
  | [] => .ok []
  | x :: xs =>
    match f x with
    | .error e => .error e
    | .ok y =>
      match mapExcept f xs with
      | .error e => .error e
      | .ok ys => .ok (y :: ys)

/-- Line filter of `FileImageSourceStrategy.__get_image_ids_from_file`
(line 106): `line.startswith("https://www.bing.com/images/create")`. -/
def createLineTest (line : String) : Bool :=
  "https://www.bing.com/images/create".data.isPrefixOf line.data

/-- `FileImageSourceStrategy.__get_image_ids_from_file` (lines 102-109)
applied to the file's lines: keep the matching lines, reverse them, and
extract the identifier pair from each; an extraction failure propagates. -/
def getImageIdsFromFile (content : List String) : Except Unit (List IdDict) :=
  mapExcept (fun url => extractSetAndImageId url.data)
    ((content.filter createLineTest).reverse)

/-- Concrete image with one candidate URL, used by the C1 theorems. -/
def c1img : Image :=
  { image_urls := [(1, "u")], index := "0001", prompt := "", page_url := "" }

/-- Oracle answering every GET with HTTP 200 and content type `image/png`. -/
def c1resp : String → Resp := fun _ => .http 200 "image/png" 2000 "OK"

/-- Concrete image with two candidates for the C1 witness: the first is
rejected with a 404, the second succeeds. -/
def c1wimg : Image :=
  { image_urls := [(1, "a"), (2, "b")], index := "0001", prompt := "", page_url := "" }

/-- Oracle for the C1 witness. -/
def c1wresp : String → Resp := fun u =>
  if u = "b" then .http 200 "image/jpeg" 2000 "OK" else .http 404 "text/html" 0 "NF"

/-- Concrete image for the C2 witness. -/
def c2img : Image :=
  { image_urls := [(1, "a"), (3, "b")], index := "0001", prompt := "", page_url := "" }

/-- Oracle answering every GET with a 404. -/
def c2resp : String → Resp := fun _ => .http 404 "text/html" 0 "NF"

/-- A sample resolved image for witnesses. -/
def sampleImage : Image :=
  { image_urls := [(1, "c"), (2, "t")], index := "0001", prompt := "p", page_url := "u" }

/-- Resolver for the C3 witness: position 0 resolves in round 0, position 1
never resolves. -/
def c3res : Nat → Nat → Option Image := fun r i =>
  if r = 0 && i == 0 then some sampleImage else none

/-- Identifier list for the C4 witness. -/
def c4ids : List IdDict := [⟨"s", "i"⟩]

/-- Detail oracle that always answers 200 with the `value` key absent. -/
def c4resp : Nat → Nat → DetailHttpResponse := fun _ _ => ⟨200, none⟩

/-- Detail record offering the same URL `u` as both content and thumbnail,
used by the C6 counterexample. -/
def c6ri : DetailImage := ⟨"id", "u", "u", "alt", "page", "d"⟩

/-- Detail record with fresh content URL and already-known thumbnail URL,
used by the C6 witness. -/
def c6wri : DetailImage := ⟨"id", "c", "t", "alt", "page", "d"⟩

/-- A file line that passes the `startswith` filter but does not contain the
identifier pattern. -/
def badLine : String := "https://www.bing.com/images/create"

/-- A file line containing a well-formed identifier. -/
def goodLine : String :=
  "https://www.bing.com/images/create/idea/0123456789abcdef0123456789abcdef?id=item1"

/-- File content for the C7 counterexample: one malformed line followed by
one well-formed line. -/
def c7content : List String := [badLine, goodLine]

/-- `APIImageSourceStrategy.__set_additional_data` (api_image_source_strategy.py
lines 116-155) as a function of the detail response.  The identifier pair is
first extracted from `image.page_url` (an unmatched pattern raises
`AttributeError`, modelled as `Except.error`).  On a 200 response with a
`value` key holding an array, a record is selected and the image gains the
detail-confirmed URLs (re-sorted) and the UTC-normalised `datePublished`
(`fmtU` models `parse(s).astimezone(timezone.utc).strftime('%Y-%m-%dT%H%MZ')`);
a `value` key holding `null` raises (`TypeError` iterating `None`) and an
empty array raises (`IndexError` at `images[0]`), both modelled as errors.
On a 200 response without a `value` key, `date_modified` is normalised with
the same `fmtU` (raising when it is `None`).  On a non-200 response,
`date.today().isoformat()` (the `today` argument) is normalised with `fmtL`,
which models `parse(s).astimezone().strftime('%Y-%m-%dT%H%M%z')` — the
local-timezone, numeric-offset formatting of lines 153-155. -/
def setAdditionalData (resp : DetailHttpResponse) (img : Image)
    (fmtU fmtL : String → String) (dec : String → String) (today : String) :
    Except Unit Image :=
  match extractSetAndImageId img.page_url.data with
  | .error _ => .error ()
  | .ok ids =>
    if resp.status = 200 then
      match resp.valueField with
      | some (some imgs) =>
        match selectResponseImage imgs (dec ids.image_id) with
        | none => .error ()
        | some ri =>
          .ok { img with
                image_urls := appendDetailUrls img.image_urls ri
                creation_date := some (fmtU ri.datePublished) }
      | some none => .error ()
      | none =>
        match img.date_modified with
        | some dm => .ok { img with creation_date := some (fmtU dm) }
        | none => .error ()
    else
      .ok { img with creation_date := some (fmtL today) }

/-- The `customData` JSON of one collection item.  The validator checks only
`MediaUrl` and `ToolTip`; `PageUrl` is read unchecked in `get_image_data`
(present in every collection payload). -/
structure CustomData where
  PageUrl : String
  MediaUrl : Option String
  ToolTip : Option String
deriving DecidableEq, Repr

/-- The `content` object of one collection item: the parsed `customData`
(absent key modelled as `none`) and the raw `thumbnailUrl` strings of the
optional `thumbnails` array. -/
structure ItemContent where
  customData : Option CustomData
  thumbnails : Option (List String)
deriving DecidableEq, Repr

/-- One entry of `collection['collectionPage']['items']`. -/
structure CollItem where
  content : Option ItemContent
  dateModified : String
deriving DecidableEq, Repr

/-- One entry of the collections listing.  `items` is
`collection.get('collectionPage', {}).get('items')` (`none` for a missing
key); `knownCollectionType` is the truthiness of that key. -/
structure Collection where
  title : String
  knownCollectionType : Bool
  items : Option (List CollItem)
deriving DecidableEq, Repr

/-- `ImageValidator.should_add_collection_to_images`: a collection is kept
when its item list is present and non-empty, and the configured include
list is empty or names it. -/
def shouldAddCollection (cfg : List String) (c : Collection) : Bool :=
  match c.items with
  | some (_ :: _) =>
    if cfg.length = 0 then true
    else (c.knownCollectionType && cfg.contains "Saved Images") || cfg.contains c.title
  | _ => false

/-- `ImageValidator.should_add_item_to_images`: the item's `customData` is
present and carries `MediaUrl` and `ToolTip`. -/
def shouldAddItem (it : CollItem) : Bool :=
  match it.content with
  | some ct =>
    match ct.customData with
    | some cd => cd.MediaUrl.isSome && cd.ToolTip.isSome
    | none => false
  | none => false

/-- Shape of the `re.sub(r'Image \d of \d$', '', ...)` suffix: exactly
`Image <digit> of <digit>` (ASCII digits; the URLs and tooltips involved are
ASCII). -/
def isImageCountSuffix (l : List Char) : Bool :=
  match l with
  | [i, m, a, g, e, sp1, d1, sp2, o, f, sp3, d2] =>
    i == 'I' && m == 'm' && a == 'a' && g == 'g' && e == 'e' && sp1 == ' ' &&
    d1.isDigit && sp2 == ' ' && o == 'o' && f == 'f' && sp3 == ' ' && d2.isDigit
  | _ => false

/-- `re.sub(r'Image \d of \d$', '', prompt)`: remove the anchored suffix when
present (the `$` anchor admits at most one occurrence). -/
def stripImageCountSuffix (s : String) : String :=
  let l := s.data
  if 12 ≤ l.length && isImageCountSuffix (l.drop (l.length - 12)) then
    String.mk (l.take (l.length - 12))
  else s

/-- Image construction of `APIImageSourceStrategy.get_image_data` lines
74-94 for one validated item: media URL at priority 1, the `&`-truncated
first thumbnail at priority 3 when a `thumbnails` array is present, the
suffix-stripped tooltip as prompt, and the 4-padded running index.  The
`getD` defaults stand for `KeyError` paths that `should_add_item_to_images`
has already excluded; an empty `thumbnails` array (IndexError in CPython)
is exercised by no claim. -/
def buildItemImage (title : String) (index : Nat) (it : CollItem) : Image :=
  let ct := it.content.getD ⟨none, none⟩
  let cd := ct.customData.getD ⟨"", none, none⟩
  let baseUrls := [(1, cd.MediaUrl.getD "")]
  let urls :=
    match ct.thumbnails with
    | some (thumbRaw :: _) =>
      baseUrls ++ [(3, String.mk (thumbRaw.data.takeWhile (fun c => c != '&')))]
    | _ => baseUrls
  { image_urls := urls
    prompt := stripImageCountSuffix (cd.ToolTip.getD "")
    collection_name := title
    page_url := cd.PageUrl
    index := zfill (toString index) 4
    date_modified := some it.dateModified }

/-- The inner `for item in collection['collectionPage']['items']` loop:
validated items are built with a running index that increments only for
kept items. -/
def gatherItems (title : String) : List CollItem → Nat → List Image × Nat
  | [], idx => ([], idx)
  | it :: rest, idx =>
    if shouldAddItem it then
      let img := buildItemImage title idx it
      let (more, idx') := gatherItems title rest (idx + 1)
      (img :: more, idx')
    else gatherItems title rest idx

/-- The outer `for collection in collection_dict['collections']` loop. -/
def gatherCollections (cfg : List String) : List Collection → Nat → List Image × Nat
  | [], idx => ([], idx)
  | c :: rest, idx =>
    if shouldAddCollection cfg c then
      let (imgs, idx') := gatherItems c.title (c.items.getD []) idx
      let (more, idx'') := gatherCollections cfg rest idx'
      (imgs ++ more, idx'')
    else gatherCollections cfg rest idx

/-- Terminal outcome of the collections listing POST. -/
structure ListingResponse where
  status : Nat
  reason : String
  collections : List Collection
deriving DecidableEq, Repr

/-- The two `raise Exception(...)` sites of
`APIImageSourceStrategy.get_image_data` (lines 63-64 and 98-100). -/
inductive ListingError where
  | noCollections
  | httpError (status : Nat) (reason : String)
deriving DecidableEq, Repr

/-- `APIImageSourceStrategy.get_image_data` (lines 38-100): on a 200
response, raise when zero collections were returned, else parse; on any
other status, raise with the status and reason. -/
def apiGetImageData (cfg : List String) (resp : ListingResponse) :
    Except ListingError (List Image) :=
  if resp.status = 200 then
    if resp.collections.length = 0 then .error .noCollections
    else .ok (gatherCollections cfg resp.collections 1).1
  else .error (.httpError resp.status resp.reason)

/-- Abort causes of the API run: a Listing-phase exception, or an exception
propagating out of the resolving phase (`asyncio.gather` over
`__set_additional_data` re-raises the first task exception). -/
inductive RunError where
  | listing (e : ListingError)
  | resolving
deriving DecidableEq, Repr

/-- `ImageDownload.run` for the API strategy: listing
(`get_image_data`), then the resolving pass (`__gather_additional_data`,
whose task exceptions propagate), then the download phase, where
`__download_and_save_image` catches every per-item exception itself so each
item is processed regardless of its siblings' outcomes.  `dresp` is each
image's detail response, `resp` the download network oracle. -/
def apiRun (cfg : List String) (lresp : ListingResponse)
    (dresp : Image → DetailHttpResponse) (fmtU fmtL dec : String → String)
    (today : String) (resp : String → Resp) (mkName : Image → String) :
    Except RunError (List Image) :=
  match apiGetImageData cfg lresp with
  | .error e => .error (.listing e)
  | .ok imgs =>
    match mapExcept (fun im => setAdditionalData (dresp im) im fmtU fmtL dec today) imgs with
    | .error _ => .error .resolving
    | .ok imgs2 => .ok (imgs2.map (downloadAndSaveImage resp mkName))

/-- Collection item whose page URL does not contain the identifier pattern,
used by the C5 counterexample. -/
def c5item : CollItem := ⟨some ⟨some ⟨"badpage", some "m", some "tt"⟩, none⟩, "2024-01-01"⟩

/-- Listing response that succeeds with the single malformed-page item. -/
def c5lresp : ListingResponse := ⟨200, "OK", [⟨"Col", false, some [c5item]⟩]⟩

/-- Detail oracle for the C5 theorems. -/
def c5dresp : Image → DetailHttpResponse := fun _ => ⟨200, none⟩

/-- Download oracle for the C5 theorems. -/
def c5dl : String → Resp := fun _ => .http 404 "text/html" 0 "NF"

/-- Listing response with zero collections (the fatal listing failure). -/
def c5wlresp : ListingResponse := ⟨200, "OK", []⟩

/-- Listing response whose only collection has an empty item list: the
listing succeeds with zero items kept. -/
def c5wok : ListingResponse := ⟨200, "OK", [⟨"C", false, some []⟩]⟩

/-- Page URL with a well-formed identifier, used by the C8 theorems. -/
def c8page : String :=
  "https://www.bing.com/images/create/x/00000000000000000000000000000000?id=a"

/-- Image entering `__set_additional_data` in the C8 theorems. -/
def c8img : Image :=
  { image_urls := [(1, "m")], index := "0001", prompt := "",
    page_url := c8page, date_modified := some "dm" }

/-- Concrete stand-in for the UTC normaliser
`parse(s).astimezone(timezone.utc).strftime('%Y-%m-%dT%H%MZ')`. -/
def c8fmtU : String → String := fun s => String.append "utcZ:" s

/-- Concrete stand-in for the local-timezone normaliser
`parse(s).astimezone().strftime('%Y-%m-%dT%H%M%z')`, a different convention
(numeric offset, local wall clock). -/
def c8fmtL : String → String := fun s => String.append "localOffset:" s

/-- Detail record for the C8 theorems. -/
def c8ri : DetailImage := ⟨"a", "c", "t", "alt", "hp", "2024-01-02T03:04:05Z"⟩

/-- Sort key of `images.sort(key=lambda image: image.collection_id)`
(safeish_collection_deletion_stategy.py line 19).  Collection ids are
strings in the collections payload (CPython cannot even order `None` keys);
an absent id is modelled as the empty string. -/
def keyOf (im : Image) : String :=
  im.collection_id.getD ""

/-- Comparison underlying the Python sort by collection id. -/
def cidLe (a b : Image) : Prop :=
  keyOf a ≤ keyOf b

instance : DecidableRel cidLe := fun a b =>
  inferInstanceAs (Decidable (keyOf a ≤ keyOf b))

instance : IsTotal Image cidLe :=
  ⟨fun a b => le_total (keyOf a) (keyOf b)⟩

instance : IsTrans Image cidLe :=
  ⟨fun _ _ _ h1 h2 => le_trans h1 h2⟩

/-- `itertools.groupby(images, key=lambda image: image.collection_id)` on
the sorted list: maximal runs of adjacent equal keys, each paired with its
key (the dict comprehension of lines 20-21 keeps exactly these pairs). -/
def groupRuns : List Image → List (String × List Image)
  | [] => []
  | x :: xs =>
    (keyOf x, x :: xs.takeWhile (fun y => keyOf y == keyOf x)) ::
      groupRuns (xs.dropWhile (fun y => keyOf y == keyOf x))
termination_by l => l.length
decreasing_by
  simp only [List.length_cons]
  exact Nat.lt_succ_of_le (List.Sublist.length_le (List.dropWhile_sublist _))

/-- The per-image test of line 24:
`image.status_code == 200 or image.status_code == 404`. -/
def okStatus (im : Image) : Bool :=
  im.status_code == some 200 || im.status_code == some 404

/-- `SafeishCollectionDeletionStrategy.delete_collection` lines 19-26: sort
by collection id, group adjacent runs, and collect the collection ids whose
group passes `len(images) != 1000 and all(status in {200, 404})`. -/
def safeishSelect (images : List Image) : List String :=
  ((groupRuns (List.insertionSort cidLe images)).filter
    (fun g => decide (images.length ≠ 1000) && g.2.all okStatus)).map Prod.fst

/-- Image with status 200 in collection `c`, used by the C9 theorems. -/
def c9img : Image :=
  { image_urls := [(1, "u")], index := "0001", prompt := "", page_url := "",
    collection_id := some "c", status_code := some 200 }

/-- Well-formed file line whose identifier is `x1`. -/
def c10lineA : String :=
  "https://www.bing.com/images/create/p/11111111111111111111111111111111?id=x1"

/-- Well-formed file line whose identifier is `x2`. -/
def c10lineB : String :=
  "https://www.bing.com/images/create/p/22222222222222222222222222222222?id=x2"

/-- File content for the C10 witness: two matching lines around one ignored
line. -/
def c10content : List String := [c10lineB, "other line", c10lineA]

/-- Identifier list extracted from `c10content` (reversed kept lines). -/
def c10ids : List IdDict :=
  [⟨"11111111111111111111111111111111", "x1"⟩,
   ⟨"22222222222222222222222222222222", "x2"⟩]

/-- Detail record for the C10 witness. -/
def c10ri : DetailImage := ⟨"x1", "c", "t", "alt", "hp", "d"⟩

/-- Detail oracle that always resolves with `c10ri`. -/
def c10respO : Nat → Nat → DetailHttpResponse := fun _ _ => ⟨200, some (some [c10ri])⟩

/-- The image the file pipeline builds at position 0 under `c10respO`. -/
def c10img0 : Image :=
  { image_urls := [(1, "c"), (2, "t")], index := "0001", prompt := "alt",
    page_url := "hp", creation_date := some "d" }

end BingDl

namespace BingDl

/-! Lemmas and theorems. -/

/-- A walk whose every candidate is rejected (non-200 or non-`image/jpeg`,
no transport exception) leaves `is_success` unchanged and increments
`attempts` once per candidate. -/
lemma downloadLoop_all_reject (resp : String → Resp) (mkName : Image → String) :
    ∀ (urls : List (Nat × String)) (img : Image),
      (∀ pu ∈ urls, isHttpReject (resp pu.2) = true) →
      (downloadLoop resp mkName img urls).is_success = img.is_success ∧
      (downloadLoop resp mkName img urls).attempts = img.attempts + urls.length := by
  intro urls
  induction urls with
  | nil => intro img _; simp [downloadLoop]
  | cons pu rest ih =>
    intro img h
    obtain ⟨p, url⟩ := pu
    have hpu := h (p, url) (List.mem_cons_self _ _)
    cases hr : resp url with
    | exn m => rw [hr] at hpu; simp [isHttpReject] at hpu
    | http s ct w reason =>
      rw [hr] at hpu
      simp only [isHttpReject, Bool.not_eq_true'] at hpu
      have hcond : ¬ (s = 200 ∧ ct = "image/jpeg") := by
        rintro ⟨h1, h2⟩
        subst h1; subst h2
        simp at hpu
      have hstep : downloadLoop resp mkName img ((p, url) :: rest) =
          downloadLoop resp mkName
            { img with attempts := img.attempts + 1,
                       status_code := some s, reason := some reason } rest := by
        simp only [downloadLoop, hr]
        rw [if_neg hcond]
      have hrec := ih
        { img with attempts := img.attempts + 1,
                   status_code := some s, reason := some reason }
        (fun q hq => h q (List.mem_cons_of_mem _ hq))
      rw [hstep]
      refine ⟨hrec.1, ?_⟩
      rw [hrec.2]
      simp
      omega

/-- A walk whose first `isSuccessResp` candidate sits at position `j`
(everything before it an HTTP reject) finishes successfully at `j`, records
that URL, and attempts exactly `j + 1` candidates. -/
lemma downloadLoop_first_success (resp : String → Resp) (mkName : Image → String) :
    ∀ (urls : List (Nat × String)) (img : Image) (j : Nat) (hj : j < urls.length),
      (∀ k (hk : k < j), isHttpReject (resp (urls.get ⟨k, lt_trans hk hj⟩).2) = true) →
      isSuccessResp (resp (urls.get ⟨j, hj⟩).2) = true →
      (downloadLoop resp mkName img urls).is_success = true ∧
      (downloadLoop resp mkName img urls).used_image_url = some (urls.get ⟨j, hj⟩).2 ∧
      (downloadLoop resp mkName img urls).attempts = img.attempts + j + 1 := by
  intro urls
  induction urls with
  | nil =>
    intro img j hj
    exact absurd hj (by simp)
  | cons pu rest ih =>
    intro img j hj hmin hsucc
    obtain ⟨p, url⟩ := pu
    cases j with
    | zero =>
      have hs : isSuccessResp (resp url) = true := by simpa using hsucc
      cases hr : resp url with
      | exn m => rw [hr] at hs; simp [isSuccessResp] at hs
      | http s ct w reason =>
        rw [hr] at hs
        simp only [isSuccessResp, Bool.and_eq_true, beq_iff_eq] at hs
        have hcond : s = 200 ∧ ct = "image/jpeg" := hs
        simp only [downloadLoop, hr]
        rw [if_pos hcond]
        refine ⟨rfl, by simp, by simp⟩
    | succ j' =>
      have hpu := hmin 0 (Nat.succ_pos j')
      simp only [List.get] at hpu
      cases hr : resp url with
      | exn m => rw [hr] at hpu; simp [isHttpReject] at hpu
      | http s ct w reason =>
        rw [hr] at hpu
        simp only [isHttpReject, Bool.not_eq_true'] at hpu
        have hcond : ¬ (s = 200 ∧ ct = "image/jpeg") := by
          rintro ⟨h1, h2⟩
          subst h1; subst h2
          simp at hpu
        have hstep : downloadLoop resp mkName img ((p, url) :: rest) =
            downloadLoop resp mkName
              { img with attempts := img.attempts + 1,
                         status_code := some s, reason := some reason } rest := by
          simp only [downloadLoop, hr]
          rw [if_neg hcond]
        have hj' : j' < rest.length := by simpa using hj
        have hrec := ih
          { img with attempts := img.attempts + 1,
                     status_code := some s, reason := some reason }
          j' hj'
          (fun k hk => hmin (k + 1) (Nat.succ_lt_succ hk))
          (by simpa using hsucc)
        rw [hstep]
        refine ⟨hrec.1, ?_, ?_⟩
        · rw [hrec.2.1]; rfl
        · rw [hrec.2.2]; simp; omega

/-- Claim C1 (amended): the fallback walk stops at the first candidate whose
response is HTTP 200 with content type exactly `image/jpeg`: the item ends
successful, `used_image_url` records that candidate, and `attempts` counts
exactly the candidates up to and including it (so no later candidate is
attempted and at least one attempt is made).  A 200 response whose content
type is not the exact string `image/jpeg` — even another image type — is a
reject and the walk continues (see `claim1_counterexample`). -/
theorem claim1_first_image_jpeg_wins (resp : String → Resp) (mkName : Image → String)
    (img : Image) (j : Nat) (hj : j < img.image_urls.length)
    (hmin : ∀ k (hk : k < j),
      isHttpReject (resp ((img.image_urls).get ⟨k, lt_trans hk hj⟩).2) = true)
    (hsucc : isSuccessResp (resp ((img.image_urls).get ⟨j, hj⟩).2) = true) :
    (downloadAndSaveImage resp mkName img).is_success = true ∧
    (downloadAndSaveImage resp mkName img).used_image_url =
      some ((img.image_urls).get ⟨j, hj⟩).2 ∧
    (downloadAndSaveImage resp mkName img).attempts = img.attempts + j + 1 ∧
    1 ≤ (downloadAndSaveImage resp mkName img).attempts := by
  have h := downloadLoop_first_success resp mkName img.image_urls img j hj hmin hsucc
  unfold downloadAndSaveImage
  exact ⟨h.1, h.2.1, h.2.2, by rw [h.2.2]; omega⟩

/-- Claim C1 as stated is false on the code: the single candidate of `c1img`
returns HTTP 200 with `image/png` — a content type indicating an image
payload — yet the walk treats it as a failure and the item does not end
successful. -/
theorem claim1_counterexample :
    specImageContentType "image/png" = true ∧
    c1resp "u" = .http 200 "image/png" 2000 "OK" ∧
    c1img.image_urls = [(1, "u")] ∧
    (downloadAndSaveImage c1resp (fun _ => "f") c1img).is_success = false ∧
    (downloadAndSaveImage c1resp (fun _ => "f") c1img).attempts = 1 := by
  decide

/-- Witness for `claim1_first_image_jpeg_wins` at a concrete input. -/
theorem claim1_witness :
    (downloadAndSaveImage c1wresp (fun _ => "f") c1wimg).is_success = true ∧
    (downloadAndSaveImage c1wresp (fun _ => "f") c1wimg).used_image_url = some "b" ∧
    (downloadAndSaveImage c1wresp (fun _ => "f") c1wimg).attempts = 2 := by
  have hj : 1 < c1wimg.image_urls.length := by decide
  have hmin : ∀ k (hk : k < 1),
      isHttpReject (c1wresp ((c1wimg.image_urls).get ⟨k, lt_trans hk hj⟩).2) = true := by
    intro k hk
    have hk0 : k = 0 := by omega
    subst hk0
    have hval : isHttpReject (c1wresp "a") = true := by decide
    exact hval
  have hsucc : isSuccessResp (c1wresp ((c1wimg.image_urls).get ⟨1, hj⟩).2) = true := by
    have hval : isSuccessResp (c1wresp "b") = true := by decide
    exact hval
  have h := claim1_first_image_jpeg_wins c1wresp (fun _ => "f") c1wimg 1 hj hmin hsucc
  exact ⟨h.1, h.2.1, h.2.2.1⟩

/-- Claim C2: when every candidate URL yields an HTTP reject (non-200 status
or wrong content type, no transport exception), the item ends unsuccessful
and `attempts` equals the number of candidate URLs — the counter increments
exactly once per candidate, rejects included. -/
theorem claim2_reject_exhaustion (resp : String → Resp) (mkName : Image → String)
    (img : Image) (hfresh : img.attempts = 0) (hpend : img.is_success = false)
    (hall : ∀ pu ∈ img.image_urls, isHttpReject (resp pu.2) = true) :
    (downloadAndSaveImage resp mkName img).is_success = false ∧
    (downloadAndSaveImage resp mkName img).attempts = img.image_urls.length := by
  have h := downloadLoop_all_reject resp mkName img.image_urls img hall
  unfold downloadAndSaveImage
  exact ⟨by rw [h.1, hpend], by rw [h.2, hfresh, Nat.zero_add]⟩

/-- Witness for `claim2_reject_exhaustion` at a concrete input. -/
theorem claim2_witness :
    (downloadAndSaveImage c2resp (fun _ => "f") c2img).is_success = false ∧
    (downloadAndSaveImage c2resp (fun _ => "f") c2img).attempts = 2 := by
  have h := claim2_reject_exhaustion c2resp (fun _ => "f") c2img rfl rfl (by decide)
  exact ⟨h.1, h.2⟩

lemma mergeRound_length :
    ∀ a b : List (Option Image), (mergeRound a b).length = min a.length b.length := by
  intro a
  induction a with
  | nil => intro b; simp [mergeRound]
  | cons c cs ih =>
    intro b
    cases b with
    | nil => simp [mergeRound]
    | cons n ns => simp [mergeRound, ih ns]; omega

lemma gatherImages_length (resolve : Nat → Nat → Option Image) (round n : Nat) :
    (gatherImages resolve round n).length = n := by
  simp [gatherImages]

lemma gatherImages_get? (resolve : Nat → Nat → Option Image) (round n i : Nat)
    (hi : i < n) : (gatherImages resolve round n).get? i = some (resolve round i) := by
  simp [gatherImages, List.get?_eq_getElem?, List.getElem?_map, List.getElem?_range, hi]

lemma mergeRound_get?_some :
    ∀ (a b : List (Option Image)) (i : Nat) (v : Image), a.get? i = some (some v) →
      i < b.length → (mergeRound a b).get? i = some (some v) := by
  intro a
  induction a with
  | nil => intro b i v h; simp at h
  | cons c cs ih =>
    intro b i v h hb
    cases b with
    | nil => simp at hb
    | cons n ns =>
      cases i with
      | zero => simp at h; simp [mergeRound, h]
      | succ j =>
        simp only [List.get?] at h
        have := ih ns j v h (by simpa using hb)
        simpa [mergeRound] using this

lemma mergeRound_get?_none :
    ∀ (a b : List (Option Image)) (i : Nat) (w : Option Image), a.get? i = some none →
      b.get? i = some w → (mergeRound a b).get? i = some w := by
  intro a
  induction a with
  | nil => intro b i w h; simp at h
  | cons c cs ih =>
    intro b i w h hb
    cases b with
    | nil => simp at hb
    | cons n ns =>
      cases i with
      | zero =>
        simp at h hb
        simp [mergeRound, h, hb]
      | succ j =>
        simp only [List.get?] at h hb
        have := ih ns j w h hb
        simpa [mergeRound] using this

lemma retryLoop_length (resolve : Nat → Nat → Option Image) (n attempts : Nat) :
    ∀ (fuel made : Nat) (cur : List (Option Image)), attempts - made ≤ fuel →
      cur.length = n → (retryLoop resolve n attempts cur made).length = n := by
  intro fuel
  induction fuel with
  | zero =>
    intro made cur hf hl
    rw [retryLoop, dif_neg]
    · exact hl
    · rintro ⟨_, hlt⟩; omega
  | succ fuel ih =>
    intro made cur hf hl
    rw [retryLoop]
    by_cases h : none ∈ cur ∧ made < attempts
    · rw [dif_pos h]
      apply ih _ _ (by omega)
      rw [mergeRound_length, hl, gatherImages_length]
      omega
    · rw [dif_neg h]; exact hl

lemma retryLoop_preserve (resolve : Nat → Nat → Option Image) (n attempts : Nat) :
    ∀ (fuel made : Nat) (cur : List (Option Image)), attempts - made ≤ fuel →
      cur.length = n → ∀ (i : Nat) (v : Image), cur.get? i = some (some v) →
      (retryLoop resolve n attempts cur made).get? i = some (some v) := by
  intro fuel
  induction fuel with
  | zero =>
    intro made cur hf hl i v hv
    rw [retryLoop, dif_neg]
    · exact hv
    · rintro ⟨_, hlt⟩; omega
  | succ fuel ih =>
    intro made cur hf hl i v hv
    rw [retryLoop]
    by_cases h : none ∈ cur ∧ made < attempts
    · rw [dif_pos h]
      have hi : i < cur.length := List.get?_eq_some.mp hv |>.1
      apply ih _ _ (by omega)
      · rw [mergeRound_length, hl, gatherImages_length]; omega
      · exact mergeRound_get?_some cur _ i v hv
          (by rw [gatherImages_length, ← hl]; exact hi)
    · rw [dif_neg h]; exact hv

lemma retryLoop_stays_none (resolve : Nat → Nat → Option Image) (n attempts : Nat)
    (i : Nat) (hres : ∀ k, resolve k i = none) :
    ∀ (fuel made : Nat) (cur : List (Option Image)), attempts - made ≤ fuel →
      cur.length = n → cur.get? i = some none →
      (retryLoop resolve n attempts cur made).get? i = some none := by
  intro fuel
  induction fuel with
  | zero =>
    intro made cur hf hl hv
    rw [retryLoop, dif_neg]
    · exact hv
    · rintro ⟨_, hlt⟩; omega
  | succ fuel ih =>
    intro made cur hf hl hv
    rw [retryLoop]
    by_cases h : none ∈ cur ∧ made < attempts
    · rw [dif_pos h]
      have hi : i < cur.length := List.get?_eq_some.mp hv |>.1
      apply ih _ _ (by omega)
      · rw [mergeRound_length, hl, gatherImages_length]; omega
      · have hg : (gatherImages resolve made n).get? i = some none := by
          rw [gatherImages_get? resolve made n i (by omega)]
          rw [hres made]
        exact mergeRound_get?_none cur _ i none hv hg
    · rw [dif_neg h]; exact hv

lemma retryLoop_align (resolve : Nat → Nat → Option Image) (n attempts : Nat) :
    ∀ (fuel made : Nat) (cur : List (Option Image)), attempts - made ≤ fuel →
      cur.length = n →
      (∀ i, i < n → cur.get? i = some none ∨ ∃ k, cur.get? i = some (resolve k i)) →
      ∀ i, i < n →
        (retryLoop resolve n attempts cur made).get? i = some none ∨
        ∃ k, (retryLoop resolve n attempts cur made).get? i = some (resolve k i) := by
  intro fuel
  induction fuel with
  | zero =>
    intro made cur hf hl hinv i hi
    rw [retryLoop, dif_neg]
    · exact hinv i hi
    · rintro ⟨_, hlt⟩; omega
  | succ fuel ih =>
    intro made cur hf hl hinv i hi
    rw [retryLoop]
    by_cases h : none ∈ cur ∧ made < attempts
    · rw [dif_pos h]
      apply ih _ _ (by omega)
      · rw [mergeRound_length, hl, gatherImages_length]; omega
      · intro j hj
        have hg : (gatherImages resolve made n).get? j = some (resolve made j) :=
          gatherImages_get? resolve made n j hj
        rcases hinv j hj with hnone | ⟨k, hk⟩
        · right
          exact ⟨made, mergeRound_get?_none cur _ j (resolve made j) hnone hg⟩
        · rcases hkv : cur.get? j with _ | w
          · rw [hkv] at hk; cases hk
          · cases w with
            | none =>
              right
              exact ⟨made, mergeRound_get?_none cur _ j (resolve made j) hkv hg⟩
            | some v =>
              right
              refine ⟨k, ?_⟩
              have hmerge := mergeRound_get?_some cur (gatherImages resolve made n) j v hkv
                (by
                  rw [gatherImages_length, ← hl]
                  exact (List.get?_eq_some.mp hkv).1)
              rw [hmerge, ← hkv, hk]
      · exact hi
    · rw [dif_neg h]; exact hinv i hi

/-- Claim C3: `get_image_data_retry` returns a list of the same length as
the identifier list, positionally aligned to it (entry `i` is either
unresolved or the value some round's resolver produced for position `i`),
and the merge is idempotent: a position already holding a resolved value is
never overwritten by any later round. -/
theorem claim3_retry_merge (resolve : Nat → Nat → Option Image) (n attempts : Nat) :
    (getImageDataRetry resolve n attempts).length = n ∧
    (∀ (cur : List (Option Image)) (made : Nat), cur.length = n →
      ∀ (i : Nat) (v : Image), cur.get? i = some (some v) →
        (retryLoop resolve n attempts cur made).get? i = some (some v)) ∧
    (∀ i, i < n →
      (getImageDataRetry resolve n attempts).get? i = some none ∨
      ∃ k, (getImageDataRetry resolve n attempts).get? i = some (resolve k i)) := by
  refine ⟨?_, ?_, ?_⟩
  · exact retryLoop_length resolve n attempts (attempts - 1) 1 _ le_rfl
      (gatherImages_length resolve 0 n)
  · intro cur made hl i v hv
    exact retryLoop_preserve resolve n attempts (attempts - made) made cur le_rfl hl i v hv
  · intro i hi
    apply retryLoop_align resolve n attempts (attempts - 1) 1 _ le_rfl
      (gatherImages_length resolve 0 n)
    · intro j hj
      right
      exact ⟨0, gatherImages_get? resolve 0 n j hj⟩
    · exact hi

/-- Witness for `claim3_retry_merge` at a concrete input. -/
theorem claim3_witness :
    (getImageDataRetry c3res 2 3).length = 2 ∧
    (retryLoop c3res 2 3 [some sampleImage, none] 1).get? 0 = some (some sampleImage) := by
  have h := claim3_retry_merge c3res 2 3
  exact ⟨h.1, h.2.1 [some sampleImage, none] 1 rfl 0 sampleImage rfl⟩

lemma filterMap_id_length_lt :
    ∀ l : List (Option Image), none ∈ l → (l.filterMap id).length < l.length := by
  intro l
  induction l with
  | nil => simp
  | cons x xs ih =>
    intro h
    cases x with
    | none =>
      have hle := List.length_filterMap_le (id : Option Image → Option Image) xs
      simp only [List.filterMap_cons, id, List.length_cons]
      omega
    | some v =>
      have hx : none ∈ xs := by simpa using h
      have := ih hx
      simp only [List.filterMap_cons, id, List.length_cons]
      omega

/-- Claim C4: a detail response whose `value` field is absent or null is an
unresolved outcome, not an exception — `get_detail_image` returns `None` —
and an identifier whose every retry round stays unresolved that way is
filtered out of the final item list, which therefore ends strictly shorter
than the identifier list. -/
theorem claim4_missing_value_unresolved
    (respO : Nat → Nat → DetailHttpResponse) (ids : List IdDict)
    (fmtU : String → String) (dec : String → String) (attempts : Nat) (i : Nat)
    (hi : i < ids.length)
    (hmiss : ∀ k, (respO k i).valueField = none ∨ (respO k i).valueField = some none) :
    (∀ (resp : DetailHttpResponse) (iid : String),
      (resp.valueField = none ∨ resp.valueField = some none) →
      getDetailImage resp iid dec = none) ∧
    (getImagesFile respO ids fmtU dec attempts).length < ids.length := by
  have hnoneRes : ∀ (resp : DetailHttpResponse) (iid : String),
      (resp.valueField = none ∨ resp.valueField = some none) →
      getDetailImage resp iid dec = none := by
    intro resp iid h
    by_cases hs : resp.status = 200 <;>
      rcases h with h | h <;> simp [getDetailImage, h, hs]
  refine ⟨hnoneRes, ?_⟩
  set resolve := fileResolve respO ids fmtU dec with hresolve
  have hresi : ∀ k, resolve k i = none := by
    intro k
    rcases List.get?_eq_some.mpr ⟨hi, rfl⟩ with hgot
    rw [hresolve]
    unfold fileResolve
    rw [hgot]
    show fileGetImageData (getDetailImage (respO k i) (ids.get ⟨i, hi⟩).image_id dec) i fmtU = none
    rw [hnoneRes (respO k i) (ids.get ⟨i, hi⟩).image_id (hmiss k)]
    rfl
  have hg0 : (gatherImages resolve 0 ids.length).get? i = some none := by
    rw [gatherImages_get? resolve 0 ids.length i hi, hresi 0]
  have hfinal : (retryLoop resolve ids.length attempts
      (gatherImages resolve 0 ids.length) 1).get? i = some none :=
    retryLoop_stays_none resolve ids.length attempts i hresi (attempts - 1) 1 _
      le_rfl (gatherImages_length resolve 0 ids.length) hg0
  have hmem : none ∈ getImageDataRetry resolve ids.length attempts :=
    List.get?_mem hfinal
  have hlen : (getImageDataRetry resolve ids.length attempts).length = ids.length :=
    retryLoop_length resolve ids.length attempts (attempts - 1) 1 _ le_rfl
      (gatherImages_length resolve 0 ids.length)
  have hlt := filterMap_id_length_lt _ hmem
  rw [hlen] at hlt
  unfold getImagesFile
  rw [← hresolve]
  exact hlt

/-- Witness for `claim4_missing_value_unresolved` at a concrete input. -/
theorem claim4_witness :
    getDetailImage ⟨200, none⟩ "i" id = none ∧
    (getImagesFile c4resp c4ids id id 2).length < c4ids.length := by
  have h := claim4_missing_value_unresolved c4resp c4ids id id 2 0 (by decide)
    (fun _ => Or.inl rfl)
  exact ⟨h.1 ⟨200, none⟩ "i" (Or.inl rfl), h.2⟩

lemma filter_orderedInsert (p : Nat) (a : Nat × String) :
    ∀ l : List (Nat × String),
      (List.orderedInsert (fun x y => x.1 ≤ y.1) a l).filter (fun x => x.1 == p) =
        (if a.1 = p then a :: l.filter (fun x => x.1 == p)
         else l.filter (fun x => x.1 == p)) := by
  intro l
  induction l with
  | nil =>
    by_cases h : a.1 = p <;>
      simp [List.orderedInsert, List.filter_cons, List.filter_nil, h]
  | cons b t ih =>
    simp only [List.orderedInsert]
    by_cases hab : a.1 ≤ b.1
    · rw [if_pos hab]
      by_cases h : a.1 = p <;> simp [List.filter_cons, h]
    · rw [if_neg hab]
      have hba : b.1 < a.1 := Nat.lt_of_not_le hab
      by_cases h : a.1 = p
      · have hbp : (b.1 == p) = false := by
          simp only [beq_eq_false_iff_ne, ne_eq]
          omega
        simp [List.filter_cons, hbp, ih, h]
      · simp [List.filter_cons, ih, h]

lemma filter_insertionSort (p : Nat) :
    ∀ l : List (Nat × String),
      (List.insertionSort (fun x y => x.1 ≤ y.1) l).filter (fun x => x.1 == p) =
        l.filter (fun x => x.1 == p) := by
  intro l
  induction l with
  | nil => rfl
  | cons a t ih =>
    simp only [List.insertionSort]
    rw [filter_orderedInsert]
    by_cases h : a.1 = p <;> simp [List.filter_cons, h, ih]

lemma appendIfNewUrl_nodup (urls : List (Nat × String)) (p : Nat) (u : String)
    (h : (urls.map Prod.snd).Nodup) :
    ((appendIfNewUrl urls p u).map Prod.snd).Nodup := by
  unfold appendIfNewUrl
  by_cases hany : urls.any (fun pu => u == pu.2)
  · rw [if_pos hany]; exact h
  · rw [if_neg hany]
    have hnot : u ∉ urls.map Prod.snd := by
      intro hmem
      apply hany
      rcases List.mem_map.mp hmem with ⟨pu, hpu, heq⟩
      exact List.any_eq_true.mpr ⟨pu, hpu, by simp [heq]⟩
    simp only [List.map_append, List.map_cons, List.map_nil]
    rw [List.nodup_append]
    refine ⟨h, List.nodup_singleton u, ?_⟩
    intro x hx hxu
    rcases List.mem_singleton.mp hxu with rfl
    exact hnot hx

/-- Claim C6 (amended): after `__set_additional_data` the candidate list is
sorted ascending by priority, the sort is stable (the sublist at each
priority is unchanged from the pre-sort list), and the detail-confirmed
appends never introduce a duplicate URL — so the final list has pairwise
distinct URLs whenever the acquisition-time list already had; duplicates
already present between the priority-1 media URL and the priority-3
thumbnail are, however, kept (see `claim6_counterexample`). -/
theorem claim6_sorted_stable_dedup (urls : List (Nat × String)) (ri : DetailImage)
    (hnd : (urls.map Prod.snd).Nodup) :
    List.Sorted (fun a b : Nat × String => a.1 ≤ b.1) (appendDetailUrls urls ri) ∧
    (∀ p : Nat, (appendDetailUrls urls ri).filter (fun x => x.1 == p) =
      (appendDetailUrlsRaw urls ri).filter (fun x => x.1 == p)) ∧
    ((appendDetailUrls urls ri).map Prod.snd).Nodup := by
  refine ⟨List.sorted_insertionSort _ _, fun p => filter_insertionSort p _, ?_⟩
  have hperm : (appendDetailUrls urls ri).Perm (appendDetailUrlsRaw urls ri) :=
    List.perm_insertionSort _ _
  have hraw : ((appendDetailUrlsRaw urls ri).map Prod.snd).Nodup :=
    appendIfNewUrl_nodup _ 4 ri.thumbnailUrl (appendIfNewUrl_nodup urls 2 ri.contentUrl hnd)
  exact ((hperm.map Prod.snd).nodup_iff).mpr hraw

/-- Claim C6 as stated is false on the code: when the acquisition-time list
already offers the same URL `u` at priorities 1 and 3 (media URL equal to
the declared thumbnail URL) and the detail service confirms the same `u`,
the deduplication guards skip both appends but never remove the existing
duplicate, so the sorted output contains `u` twice. -/
theorem claim6_counterexample :
    appendDetailUrls [(1, "u"), (3, "u")] c6ri = [(1, "u"), (3, "u")] ∧
    ¬ ((appendDetailUrls [(1, "u"), (3, "u")] c6ri).map Prod.snd).Nodup := by
  decide

/-- Witness for `claim6_sorted_stable_dedup` at a concrete input. -/
theorem claim6_witness :
    List.Sorted (fun a b : Nat × String => a.1 ≤ b.1)
      (appendDetailUrls [(1, "m"), (3, "t")] c6wri) ∧
    (appendDetailUrls [(1, "m"), (3, "t")] c6wri).filter (fun x => x.1 == 2) =
      (appendDetailUrlsRaw [(1, "m"), (3, "t")] c6wri).filter (fun x => x.1 == 2) ∧
    ((appendDetailUrls [(1, "m"), (3, "t")] c6wri).map Prod.snd).Nodup := by
  have h := claim6_sorted_stable_dedup [(1, "m"), (3, "t")] c6wri (by decide)
  exact ⟨h.1, h.2.1 2, h.2.2⟩

lemma mapExcept_error {α β : Type} (f : α → Except Unit β) :
    ∀ (l : List α) (x : α), x ∈ l → f x = .error () → mapExcept f l = .error () := by
  intro l
  induction l with
  | nil => intro x h; cases h
  | cons a t ih =>
    intro x hx hfx
    rcases List.mem_cons.mp hx with rfl | hmem
    · unfold mapExcept
      rw [hfx]
    · unfold mapExcept
      cases hfa : f a with
      | error e => cases e; rfl
      | ok y => rw [ih x hmem hfx]

/-- Claim C7 (amended): when the identifier pattern matches nowhere in a
kept line, `extract_set_and_image_id` fails — but the failure is an
uncaught exception that propagates out of `__get_image_ids_from_file`, so
the whole file-acquisition call errors and the run aborts; the malformed
item is not dropped in favour of the remaining items. -/
theorem claim7_extraction_error_aborts (content : List String) (line : String)
    (hmem : line ∈ content.filter createLineTest)
    (hnomatch : searchIdx line.data = none) :
    extractSetAndImageId line.data = .error () ∧
    getImageIdsFromFile content = .error () := by
  have hext : extractSetAndImageId line.data = .error () := by
    unfold extractSetAndImageId
    rw [hnomatch]
  refine ⟨hext, ?_⟩
  unfold getImageIdsFromFile
  exact mapExcept_error _ _ line (List.mem_reverse.mpr hmem) hext

/-- Claim C7 as stated is false on the code: `c7content` holds one malformed
kept line and one well-formed kept line; instead of dropping the malformed
item and continuing with the well-formed one, the acquisition errors as a
whole. -/
theorem claim7_counterexample :
    createLineTest badLine = true ∧
    extractSetAndImageId goodLine.data =
      .ok ⟨"0123456789abcdef0123456789abcdef", "item1"⟩ ∧
    getImageIdsFromFile c7content = .error () := by
  decide

/-- Witness for `claim7_extraction_error_aborts` at a concrete input. -/
theorem claim7_witness :
    extractSetAndImageId badLine.data = .error () ∧
    getImageIdsFromFile c7content = .error () := by
  exact claim7_extraction_error_aborts c7content badLine (by decide) (by decide)

/-- Claim C5 (amended): the run errors with a Listing failure exactly when
`get_image_data` raises, and once both the listing and the resolving pass
succeed the run completes with every item pushed through the download walk —
download-phase failures are contained per item and can never abort the run.
However, the resolving pass is not so contained: an exception in
`__set_additional_data` (e.g. an unmatched identifier pattern) propagates
through `asyncio.gather` and aborts the run (see `claim5_counterexample`),
so the Listing failure is not the only run-aborting condition. -/
theorem claim5_failure_scopes (cfg : List String) (lresp : ListingResponse)
    (dresp : Image → DetailHttpResponse) (fmtU fmtL dec : String → String)
    (today : String) (resp : String → Resp) (mkName : Image → String) :
    (∀ e : ListingError,
      apiRun cfg lresp dresp fmtU fmtL dec today resp mkName = .error (.listing e) ↔
      apiGetImageData cfg lresp = .error e) ∧
    (∀ (imgs imgs2 : List Image), apiGetImageData cfg lresp = .ok imgs →
      mapExcept (fun im => setAdditionalData (dresp im) im fmtU fmtL dec today) imgs =
        .ok imgs2 →
      apiRun cfg lresp dresp fmtU fmtL dec today resp mkName =
        .ok (imgs2.map (downloadAndSaveImage resp mkName))) := by
  constructor
  · intro e
    constructor
    · intro h
      unfold apiRun at h
      split at h
      · rename_i e' heq
        simp only [Except.error.injEq, RunError.listing.injEq] at h
        rw [← h]
        exact heq
      · rename_i imgs heq
        split at h
        · simp at h
        · simp at h
    · intro h
      unfold apiRun
      simp only [h]
  · intro imgs imgs2 h1 h2
    unfold apiRun
    simp only [h1, h2]

/-- Claim C5 as stated is false on the code: `c5lresp` makes the listing
succeed (one item, malformed page URL), yet the run aborts in the resolving
phase — a per-item resolution failure terminates the whole run, so the
Listing failure is not the only aborting condition. -/
theorem claim5_counterexample :
    apiGetImageData [] c5lresp =
      .ok [{ image_urls := [(1, "m")], index := "0001", prompt := "tt",
             page_url := "badpage", collection_name := "Col",
             date_modified := some "2024-01-01" }] ∧
    apiRun [] c5lresp c5dresp id id id "t" c5dl (fun _ => "f") = .error .resolving := by
  decide

/-- Witness for `claim5_failure_scopes` at concrete inputs. -/
theorem claim5_witness :
    apiRun [] c5wlresp c5dresp id id id "t" c5dl (fun _ => "f") =
      .error (.listing .noCollections) ∧
    apiRun [] c5wok c5dresp id id id "t" c5dl (fun _ => "f") = .ok [] := by
  have h1 := claim5_failure_scopes [] c5wlresp c5dresp id id id "t" c5dl (fun _ => "f")
  have h2 := claim5_failure_scopes [] c5wok c5dresp id id id "t" c5dl (fun _ => "f")
  refine ⟨(h1.1 .noCollections).mpr (by decide), ?_⟩
  have h := h2.2 [] [] (by decide) rfl
  simpa using h

/-- Claim C8 (amended): `creationTimestamp` is resolved in the claimed order
— detail `datePublished` when the detail call returns 200 with a `value`
array, else `date_modified`, else the local current date — but only the
first two cases share the UTC `'%Y-%m-%dT%H%MZ'` convention; the
current-time fallback is normalised with `astimezone()` and
`'%Y-%m-%dT%H%M%z'`, a different (local-offset) convention, so the three
cases do not use one single timezone convention. -/
theorem claim8_timestamp_resolution (resp : DetailHttpResponse) (img : Image)
    (fmtU fmtL dec : String → String) (today : String) (ids : IdDict)
    (hext : extractSetAndImageId img.page_url.data = .ok ids) :
    (∀ (imgsv : List DetailImage) (ri : DetailImage), resp.status = 200 →
      resp.valueField = some (some imgsv) →
      selectResponseImage imgsv (dec ids.image_id) = some ri →
      setAdditionalData resp img fmtU fmtL dec today =
        .ok { img with image_urls := appendDetailUrls img.image_urls ri,
                       creation_date := some (fmtU ri.datePublished) }) ∧
    (∀ dm : String, resp.status = 200 → resp.valueField = none →
      img.date_modified = some dm →
      setAdditionalData resp img fmtU fmtL dec today =
        .ok { img with creation_date := some (fmtU dm) }) ∧
    (resp.status ≠ 200 →
      setAdditionalData resp img fmtU fmtL dec today =
        .ok { img with creation_date := some (fmtL today) }) := by
  refine ⟨?_, ?_, ?_⟩
  · intro imgsv ri hs hv hsel
    unfold setAdditionalData
    rw [hext]
    simp [hs, hv, hsel]
  · intro dm hs hv hdm
    unfold setAdditionalData
    rw [hext]
    simp [hs, hv, hdm]
  · intro hs
    unfold setAdditionalData
    rw [hext]
    simp [hs]

/-- Claim C8 as stated is false on the code: with concrete stand-ins for the
two normalisers, the 200-with-value and 200-without-value paths store a
`utcZ`-normalised string while the non-200 fallback stores a
`localOffset`-normalised string — two different timezone conventions. -/
theorem claim8_counterexample :
    setAdditionalData ⟨200, some (some [c8ri])⟩ c8img c8fmtU c8fmtL id "2026-10-12" =
      .ok { c8img with
            image_urls := [(1, "m"), (2, "c"), (4, "t")],
            creation_date := some "utcZ:2024-01-02T03:04:05Z" } ∧
    setAdditionalData ⟨200, none⟩ c8img c8fmtU c8fmtL id "2026-10-12" =
      .ok { c8img with creation_date := some "utcZ:dm" } ∧
    setAdditionalData ⟨404, none⟩ c8img c8fmtU c8fmtL id "2026-10-12" =
      .ok { c8img with creation_date := some "localOffset:2026-10-12" } ∧
    c8fmtL "2026-10-12" ≠ c8fmtU "2026-10-12" := by
  decide

/-- Witness for `claim8_timestamp_resolution` at concrete inputs. -/
theorem claim8_witness :
    setAdditionalData ⟨404, none⟩ c8img c8fmtU c8fmtL id "2026-10-12" =
      .ok { c8img with creation_date := some (c8fmtL "2026-10-12") } ∧
    setAdditionalData ⟨200, none⟩ c8img c8fmtU c8fmtL id "2026-10-12" =
      .ok { c8img with creation_date := some (c8fmtU "dm") } := by
  have hext : extractSetAndImageId c8img.page_url.data =
      .ok ⟨"00000000000000000000000000000000", "a"⟩ := by decide
  have h404 := claim8_timestamp_resolution ⟨404, none⟩ c8img c8fmtU c8fmtL id
    "2026-10-12" _ hext
  have h200 := claim8_timestamp_resolution ⟨200, none⟩ c8img c8fmtU c8fmtL id
    "2026-10-12" _ hext
  exact ⟨h404.2.2 (by decide), h200.2.1 "dm" rfl rfl rfl⟩

lemma dropWhile_key_gt (x : Image) :
    ∀ xs : List Image, (∀ y ∈ xs, cidLe x y) → List.Pairwise cidLe xs →
      ∀ z ∈ xs.dropWhile (fun y => keyOf y == keyOf x), keyOf x < keyOf z := by
  intro xs
  induction xs with
  | nil => intro _ _ z hz; simp at hz
  | cons y ys ih =>
    intro hle hpw z hz
    simp only [List.dropWhile_cons] at hz
    by_cases hy : (keyOf y == keyOf x) = true
    · rw [if_pos hy] at hz
      exact ih (fun y' hy' => hle y' (List.mem_cons_of_mem _ hy')) hpw.of_cons z hz
    · rw [if_neg hy] at hz
      have hne : keyOf y ≠ keyOf x := by simpa using hy
      have hxy : keyOf x < keyOf y :=
        lt_of_le_of_ne (hle y (List.mem_cons_self _ _)) (Ne.symm hne)
      rcases List.mem_cons.mp hz with rfl | hz'
      · exact hxy
      · exact lt_of_lt_of_le hxy (List.rel_of_pairwise_cons hpw hz')

lemma groupRuns_char :
    ∀ (n : Nat) (l : List Image), l.length ≤ n → List.Pairwise cidLe l →
      ∀ (k : String) (g : List Image),
        ((k, g) ∈ groupRuns l ↔
          (∃ x ∈ l, keyOf x = k) ∧ g = l.filter (fun y => keyOf y == k)) := by
  intro n
  induction n with
  | zero =>
    intro l hl _ k g
    have hnil : l = [] := List.eq_nil_of_length_eq_zero (Nat.le_zero.mp hl)
    subst hnil
    simp [groupRuns]
  | succ n ih =>
    intro l hl hpw k g
    cases l with
    | nil => simp [groupRuns]
    | cons x xs =>
      have hxs_pw : List.Pairwise cidLe xs := hpw.of_cons
      have hx_le : ∀ y ∈ xs, cidLe x y := fun y hy => List.rel_of_pairwise_cons hpw hy
      have hrun_key : ∀ y ∈ xs.takeWhile (fun y => keyOf y == keyOf x),
          keyOf y = keyOf x := by
        intro y hy
        have hpy := List.mem_takeWhile_imp (p := fun z => keyOf z == keyOf x) hy
        exact eq_of_beq hpy
      have hrest_gt : ∀ z ∈ xs.dropWhile (fun y => keyOf y == keyOf x),
          keyOf x < keyOf z :=
        dropWhile_key_gt x xs hx_le hxs_pw
      have hsplit : xs.takeWhile (fun y => keyOf y == keyOf x) ++
          xs.dropWhile (fun y => keyOf y == keyOf x) = xs :=
        List.takeWhile_append_dropWhile _ _
      have hrest_len : (xs.dropWhile (fun y => keyOf y == keyOf x)).length ≤ n := by
        have h1 := List.Sublist.length_le
          (List.dropWhile_sublist (l := xs) (fun y => keyOf y == keyOf x))
        simp only [List.length_cons] at hl
        omega
      have hrest_pw : List.Pairwise cidLe (xs.dropWhile (fun y => keyOf y == keyOf x)) :=
        List.Pairwise.sublist (List.dropWhile_sublist _) hxs_pw
      have hfilter_x : (x :: xs).filter (fun y => keyOf y == keyOf x) =
          x :: xs.takeWhile (fun y => keyOf y == keyOf x) := by
        rw [List.filter_cons_of_pos (by simp)]
        congr 1
        conv_lhs => rw [← hsplit]
        rw [List.filter_append]
        have hrun : (xs.takeWhile (fun y => keyOf y == keyOf x)).filter
            (fun y => keyOf y == keyOf x) = xs.takeWhile (fun y => keyOf y == keyOf x) := by
          apply List.filter_eq_self.mpr
          intro y hy
          simp [hrun_key y hy]
        have hrest : (xs.dropWhile (fun y => keyOf y == keyOf x)).filter
            (fun y => keyOf y == keyOf x) = [] := by
          apply List.filter_eq_nil_iff.mpr
          intro z hz
          have hlt := hrest_gt z hz
          simp only [beq_iff_eq]
          exact fun he => absurd (he ▸ hlt) (lt_irrefl _)
        rw [hrun, hrest, List.append_nil]
      have hfilter_eq : ∀ k' : String, k' ≠ keyOf x →
          (x :: xs).filter (fun y => keyOf y == k') =
            (xs.dropWhile (fun y => keyOf y == keyOf x)).filter
              (fun y => keyOf y == k') := by
        intro k' hk'
        rw [List.filter_cons_of_neg (by simpa using Ne.symm hk')]
        conv_lhs => rw [← hsplit]
        rw [List.filter_append]
        have hrun : (xs.takeWhile (fun y => keyOf y == keyOf x)).filter
            (fun y => keyOf y == k') = [] := by
          apply List.filter_eq_nil_iff.mpr
          intro y hy
          rw [hrun_key y hy]
          simpa using Ne.symm hk'
        rw [hrun, List.nil_append]
      constructor
      · intro hmem
        rw [groupRuns] at hmem
        rcases List.mem_cons.mp hmem with heq | htail
        · obtain ⟨hk, hg⟩ := Prod.mk.injEq .. |>.mp heq
          subst hk
          refine ⟨⟨x, List.mem_cons_self _ _, rfl⟩, ?_⟩
          rw [hg, hfilter_x]
        · obtain ⟨⟨z, hz, hkz⟩, hg⟩ := (ih _ hrest_len hrest_pw k g).mp htail
          have hkx : k ≠ keyOf x := by
            have hlt := hrest_gt z hz
            rw [hkz] at hlt
            exact fun he => absurd (he ▸ hlt) (lt_irrefl _)
          refine ⟨⟨z, List.mem_cons_of_mem _
            ((List.dropWhile_sublist _).subset hz), hkz⟩, ?_⟩
          rw [hfilter_eq k hkx]
          exact hg
      · rintro ⟨⟨x', hx', hkx'⟩, hg⟩
        by_cases hk : k = keyOf x
        · subst hk
          rw [groupRuns]
          apply List.mem_cons.mpr
          left
          rw [hfilter_x] at hg
          rw [hg]
        · have hx'_xs : x' ∈ xs := by
            rcases List.mem_cons.mp hx' with rfl | h
            · exact absurd hkx'.symm hk
            · exact h
          have hx'_rest : x' ∈ xs.dropWhile (fun y => keyOf y == keyOf x) := by
            have hsplitmem : x' ∈ xs.takeWhile (fun y => keyOf y == keyOf x) ++
                xs.dropWhile (fun y => keyOf y == keyOf x) := by
              rw [hsplit]; exact hx'_xs
            rcases List.mem_append.mp hsplitmem with hrun | hrest
            · have := hrun_key x' hrun
              rw [hkx'] at this
              exact absurd this hk
            · exact hrest
          rw [groupRuns]
          apply List.mem_cons.mpr
          right
          apply (ih _ hrest_len hrest_pw k g).mpr
          refine ⟨⟨x', hx'_rest, hkx'⟩, ?_⟩
          rw [hg, hfilter_eq k hk]

/-- Claim C9 (amended): under the safeish policy a collection id is selected
for deletion exactly when the total finished item count differs from 1000
and every item of that collection (some item carrying the id) has final
status 200 or 404.  The extra `len(images) != 1000` guard makes the claim's
pure per-collection characterisation fail at exactly 1000 items (see
`claim9_counterexample`). -/
theorem claim9_safeish_selection (images : List Image) (k : String) :
    k ∈ safeishSelect images ↔
      (images.length ≠ 1000 ∧ (∃ im ∈ images, keyOf im = k) ∧
       ∀ im ∈ images, keyOf im = k → okStatus im = true) := by
  unfold safeishSelect
  have hsorted : List.Pairwise cidLe (List.insertionSort cidLe images) :=
    List.sorted_insertionSort cidLe images
  have hperm : (List.insertionSort cidLe images).Perm images :=
    List.perm_insertionSort cidLe images
  constructor
  · intro hk
    rcases List.mem_map.mp hk with ⟨⟨k', g⟩, hmem, hfst⟩
    rcases List.mem_filter.mp hmem with ⟨hg, hcond⟩
    simp only [Bool.and_eq_true, decide_eq_true_eq] at hcond
    have hk' : k' = k := hfst
    subst hk'
    obtain ⟨⟨x, hx, hkx⟩, hgf⟩ :=
      (groupRuns_char (List.insertionSort cidLe images).length _ le_rfl hsorted k' g).mp hg
    refine ⟨hcond.1, ⟨x, hperm.subset hx, hkx⟩, ?_⟩
    intro im him hkim
    have him' : im ∈ List.insertionSort cidLe images := hperm.mem_iff.mpr him
    have himg : im ∈ g := by
      rw [hgf]
      exact List.mem_filter.mpr ⟨him', by simp [hkim]⟩
    exact List.all_eq_true.mp hcond.2 im himg
  · rintro ⟨h1000, ⟨x, hx, hkx⟩, hall⟩
    have hx' : x ∈ List.insertionSort cidLe images := hperm.mem_iff.mpr hx
    have hmem := (groupRuns_char (List.insertionSort cidLe images).length _ le_rfl hsorted k
      ((List.insertionSort cidLe images).filter (fun y => keyOf y == k))).mpr
      ⟨⟨x, hx', hkx⟩, rfl⟩
    apply List.mem_map.mpr
    refine ⟨(k, (List.insertionSort cidLe images).filter (fun y => keyOf y == k)),
      List.mem_filter.mpr ⟨hmem, ?_⟩, rfl⟩
    simp only [Bool.and_eq_true, decide_eq_true_eq]
    refine ⟨h1000, List.all_eq_true.mpr ?_⟩
    intro y hy
    rcases List.mem_filter.mp hy with ⟨hy', hkey⟩
    exact hall y (hperm.subset hy') (by simpa using hkey)

/-- Claim C9 as stated is false on the code: with exactly 1000 finished
items, all of status 200 and all in collection `c`, the collection satisfies
the claimed condition yet is not selected, because of the
`len(images) != 1000` guard of line 24. -/
theorem claim9_counterexample :
    okStatus c9img = true ∧
    keyOf c9img = "c" ∧
    (List.replicate 1000 c9img).length = 1000 ∧
    safeishSelect (List.replicate 1000 c9img) = [] := by
  refine ⟨rfl, rfl, List.length_replicate .., ?_⟩
  unfold safeishSelect
  rw [List.filter_eq_nil_iff.mpr ?_]
  · rfl
  · intro g _
    rw [List.length_replicate]
    simp

lemma mapExcept_ok {α β : Type} (f : α → Except Unit β) :
    ∀ (l : List α) (ys : List β), mapExcept f l = .ok ys →
      ys.length = l.length ∧
      ∀ (j : Nat) (x : α) (y : β), l.get? j = some x → ys.get? j = some y →
        f x = .ok y := by
  intro l
  induction l with
  | nil =>
    intro ys h
    unfold mapExcept at h
    simp only [Except.ok.injEq] at h
    subst h
    exact ⟨rfl, fun j x y hx _ => by simp at hx⟩
  | cons a t ih =>
    intro ys h
    unfold mapExcept at h
    split at h
    · simp at h
    · rename_i y0 hfa
      split at h
      · simp at h
      · rename_i ys0 hmt
        simp only [Except.ok.injEq] at h
        subst h
        obtain ⟨hlen, halign⟩ := ih ys0 hmt
        refine ⟨by simp [hlen], ?_⟩
        intro j x y hx hy
        cases j with
        | zero =>
          simp only [List.get?] at hx hy
          cases hx
          cases hy
          exact hfa
        | succ j' =>
          simp only [List.get?] at hx hy
          exact halign j' x y hx hy

lemma retryLoop_no_none (resolve : Nat → Nat → Option Image) (n attempts : Nat)
    (cur : List (Option Image)) (made : Nat) (h : none ∉ cur) :
    retryLoop resolve n attempts cur made = cur := by
  rw [retryLoop, dif_neg]
  rintro ⟨hmem, _⟩
  exact h hmem

lemma filterMap_id_all_some_length :
    ∀ l : List (Option Image), (∀ x ∈ l, x.isSome = true) →
      (l.filterMap id).length = l.length := by
  intro l
  induction l with
  | nil => intro _; rfl
  | cons x xs ih =>
    intro h
    cases x with
    | none =>
      have := h none (List.mem_cons_self _ _)
      simp at this
    | some w =>
      have ht := ih (fun y hy => h y (List.mem_cons_of_mem _ hy))
      simp only [List.filterMap_cons, id, List.length_cons, ht]

lemma filterMap_id_all_some_get? :
    ∀ l : List (Option Image), (∀ x ∈ l, x.isSome = true) →
      ∀ (j : Nat) (v : Image),
        ((l.filterMap id).get? j = some v ↔ l.get? j = some (some v)) := by
  intro l
  induction l with
  | nil => intro _ j v; simp
  | cons x xs ih =>
    intro h j v
    cases x with
    | none =>
      have := h none (List.mem_cons_self _ _)
      simp at this
    | some w =>
      have ht := ih (fun y hy => h y (List.mem_cons_of_mem _ hy))
      cases j with
      | zero => simp [List.filterMap_cons]
      | succ j' =>
        simp only [List.filterMap_cons, id, List.get?]
        exact ht j' v

/-- Claim C10: the file strategy keeps exactly the lines starting with
`https://www.bing.com/images/create` (other lines are silently ignored),
processes the kept lines in reverse file order — entry `j` of the identifier
list is extracted from the `j`-th kept line counted from the end — and, when
detail resolution succeeds in the first round for every identifier, the
resulting item at position `j` carries index `zfill (j+1) 4`, so index
`"0001"` belongs to the last matching line of the file and indices ascend
toward the first matching line. -/
theorem claim10_file_order_and_index (content : List String) (ids : List IdDict)
    (respO : Nat → Nat → DetailHttpResponse) (fmtU dec : String → String)
    (attempts : Nat)
    (hok : getImageIdsFromFile content = .ok ids)
    (hres : ∀ i, i < ids.length →
      (fileResolve respO ids fmtU dec 0 i).isSome = true) :
    ids.length = (content.filter createLineTest).length ∧
    (∀ (j : Nat) (line : String) (idd : IdDict),
      ((content.filter createLineTest).reverse).get? j = some line →
      ids.get? j = some idd →
      extractSetAndImageId line.data = .ok idd) ∧
    (getImagesFile respO ids fmtU dec attempts).length = ids.length ∧
    (∀ (j : Nat) (img : Image),
      (getImagesFile respO ids fmtU dec attempts).get? j = some img →
      img.index = zfill (toString (j + 1)) 4) := by
  unfold getImageIdsFromFile at hok
  obtain ⟨hlen, halign⟩ := mapExcept_ok _ _ _ hok
  refine ⟨by rw [hlen, List.length_reverse], fun j line idd h1 h2 => halign j line idd h1 h2,
    ?_, ?_⟩
  all_goals {
    have hall : ∀ x ∈ gatherImages (fileResolve respO ids fmtU dec) 0 ids.length,
        x.isSome = true := by
      intro x hx
      rcases List.mem_map.mp hx with ⟨i, hi, rfl⟩
      exact hres i (List.mem_range.mp hi)
    have hno : none ∉ gatherImages (fileResolve respO ids fmtU dec) 0 ids.length := by
      intro hmem
      have := hall none hmem
      simp at this
    have hloop : getImageDataRetry (fileResolve respO ids fmtU dec) ids.length attempts =
        gatherImages (fileResolve respO ids fmtU dec) 0 ids.length :=
      retryLoop_no_none _ _ _ _ _ hno
    first
    | -- length conjunct
      (rw [getImagesFile, hloop, filterMap_id_all_some_length _ hall,
        gatherImages_length])
    | -- index conjunct
      (intro j img hj
       rw [getImagesFile, hloop] at hj
       have hj' := (filterMap_id_all_some_get? _ hall j img).mp hj
       have hjlt : j < ids.length := by
         have := List.get?_eq_some.mp hj' |>.1
         rwa [gatherImages_length] at this
       rw [gatherImages_get? _ _ _ _ hjlt] at hj'
       have hres0 : fileResolve respO ids fmtU dec 0 j = some img :=
         Option.some.inj hj'
       unfold fileResolve at hres0
       rcases hgj : ids.get? j with _ | idd
       · simp only [hgj] at hres0
         cases hres0
       · simp only [hgj] at hres0
         cases hdet : getDetailImage (respO 0 j) idd.image_id dec with
         | none =>
           simp only [hdet, fileGetImageData] at hres0
           cases hres0
         | some d =>
           simp only [hdet, fileGetImageData, Option.some.injEq] at hres0
           rw [← hres0])
  }

/-- Witness for `claim10_file_order_and_index` at a concrete input: in
`c10content` the last matching line (`c10lineA`) yields position 0 and index
`"0001"`. -/
theorem claim10_witness :
    c10ids.length = (c10content.filter createLineTest).length ∧
    (getImagesFile c10respO c10ids id id 3).length = c10ids.length ∧
    (getImagesFile c10respO c10ids id id 3).get? 0 = some c10img0 ∧
    c10img0.index = zfill (toString 1) 4 := by
  have hok : getImageIdsFromFile c10content = .ok c10ids := by decide
  have hres : ∀ i, i < c10ids.length →
      (fileResolve c10respO c10ids id id 0 i).isSome = true := by
    intro i hi
    have hi2 : i = 0 ∨ i = 1 := by
      have : c10ids.length = 2 := rfl
      omega
    rcases hi2 with rfl | rfl
    · decide
    · decide
  have h := claim10_file_order_and_index c10content c10ids c10respO id id 3 hok hres
  have hg : (getImagesFile c10respO c10ids id id 3).get? 0 = some c10img0 := by
    unfold getImagesFile getImageDataRetry
    rw [retryLoop_no_none _ _ _ _ _ (by decide)]
    decide
  exact ⟨h.1, h.2.2.1, hg, h.2.2.2 0 c10img0 hg⟩

end BingDl
